import Mathlib

/-!
Verification of the telemetry correlation core of the `ampy-observability`
Go repository.

The development shallowly embeds the Go sources:

* `go/ampyobs/logger.go` — the slog logger `L`/`C`, the W3C header helpers
  `InjectTrace`/`ExtractTrace`, and the metric recording helpers
  (`BusProducedAdd`, `OMSRejectAdd`, ...);
* `go/ampyobs/obs.go` — `Init`, the sampler selection in `newTracerProvider`,
  and `parseEndpoint`;
* `sdk/go/ampyobs/logging.go` — the zap logger field assembly `zapLogger.log`;
* `sdk/go/ampyobs/context.go` — `DomainContext`, `WithDomainContext`,
  `FromDomainContext`, `toZapFields`;
* the Prometheus instrument registration `Metrics.NewCounter`.

Machine integers are modelled as `Nat` with explicit bounds, Go `map`s as
association lists, Go panics and errors as `Except`, and fallible parsing as
`Option`.  Behavior of direct dependencies that the sources delegate to (the
OpenTelemetry W3C `TraceContext` propagator, the OpenTelemetry batch span
processor, Go's `net/url` and `net.SplitHostPort`, Prometheus label
validation) is modelled where a claim depends on it; each such definition
carries a doc comment saying what it models.
-/

namespace AmpyObs

/-! ## Hexadecimal encoding and decoding

Models Go `encoding/hex` as used by the OpenTelemetry `TraceContext`
propagator: lowercase encoding, decoding accepts both cases. -/

/-- Value of one hex digit, as in Go `encoding/hex.fromHexChar`:
digits, lowercase and uppercase letters are accepted. -/
def hexDigitVal (c : Char) : Option Nat :=
  let n := c.toNat
  if 48 ≤ n ∧ n ≤ 57 then some (n - 48)
  else if 97 ≤ n ∧ n ≤ 102 then some (n - 97 + 10)
  else if 65 ≤ n ∧ n ≤ 70 then some (n - 65 + 10)
  else none

/-- Lowercase hex digit for a value below 16 (Go `encoding/hex` encodes
lowercase). -/
def natToHexChar (d : Nat) : Char :=
  match d with
  | 0 => '0' | 1 => '1' | 2 => '2' | 3 => '3' | 4 => '4'
  | 5 => '5' | 6 => '6' | 7 => '7' | 8 => '8' | 9 => '9'
  | 10 => 'a' | 11 => 'b' | 12 => 'c' | 13 => 'd' | 14 => 'e'
  | _ => 'f'

/-- Fixed-width big-endian lowercase hex rendering of `n` on `k` digits,
as `hex.Encode` renders a trace or span id. -/
def encodeHex : Nat → Nat → List Char
  | 0, _ => []
  | k + 1, n => encodeHex k (n / 16) ++ [natToHexChar (n % 16)]

/-- Accumulating hex decoder: fails on the first non-hex character. -/
def decodeHexCore : List Char → Nat → Option Nat
  | [], acc => some acc
  | c :: cs, acc =>
    match hexDigitVal c with
    | some d => decodeHexCore cs (acc * 16 + d)
    | none => none

/-- Decode a big-endian hex string to a number, as `hex.Decode` does for a
full-length part; `none` on any non-hex character. -/
def decodeHex (l : List Char) : Option Nat :=
  decodeHexCore l 0

/-! ## W3C trace-context wire format

Modelled from the spec: `InjectTrace` and `ExtractTrace` in
`go/ampyobs/logger.go` delegate to the OpenTelemetry `TraceContext`
propagator installed by `Init`; that propagator's implementation is a
dependency and is not under the repository sources.  The wire format is the
one the spec fixes — a `traceparent` field holding version (2 hex chars),
trace id (32 hex chars), span id (16 hex chars) and flags (2 hex chars, bit
0 = sampled), dash-separated, with malformed or unsupported-version input
yielding an empty context.  The `tracestate` vendor field is not modelled:
the claims only concern the `traceparent` fields. -/

/-- The correlation identity the propagator carries: 128-bit trace id and
64-bit span id held as bounded `Nat`, and the sampled flag bit. -/
structure SpanContext where
  traceId : Nat
  spanId : Nat
  sampled : Bool
deriving DecidableEq, Repr

/-- Validity as in OpenTelemetry: both ids nonzero. -/
def SpanContext.isValid (sc : SpanContext) : Bool :=
  sc.traceId != 0 && sc.spanId != 0

/-- The machine-width bounds of the two ids (128-bit and 64-bit). -/
def SpanContext.inBounds (sc : SpanContext) : Prop :=
  sc.traceId < 16 ^ 32 ∧ sc.spanId < 16 ^ 16

/-- Models Go `strings.Cut(h, "-")`: the part before the first dash and
everything after it (empty when there is no dash). -/
def cutDash (l : List Char) : List Char × List Char :=
  (l.takeWhile fun c => c != '-', ((l.dropWhile fun c => c != '-').drop 1))

/-- One `extractPart` step of the propagator: the next dash-separated part
must have exactly `n` characters and decode as hex. -/
def parsePart (n : Nat) (h : List Char) : Option (Nat × List Char) :=
  let pl := cutDash h
  if pl.1.length = n then
    match decodeHex pl.1 with
    | some v => some (v, pl.2)
    | none => none
  else none

/-- The `traceparent` value written for a valid span context: version `00`,
then trace id, span id and flags in lowercase hex, dash-separated.  Only the
sampled bit of the flags is written. -/
def traceparentChars (sc : SpanContext) : List Char :=
  '0' :: '0' :: '-' ::
    (encodeHex 32 sc.traceId ++ '-' ::
      (encodeHex 16 sc.spanId ++ '-' ::
        encodeHex 2 (if sc.sampled then 1 else 0)))

/-- Parse a `traceparent` value.  Empty input, a wrong-length or non-hex
part, version above the maximum (254), trailing data or flags above 2 under
version 0, or all-zero ids all yield `none` — an empty context, never an
error. -/
def extractTraceparentChars (h : List Char) : Option SpanContext :=
  if h = [] then none else do
  let (ver, r1) ← parsePart 2 h
  if 254 < ver then none else do
  let (tid, r2) ← parsePart 32 r1
  let (sid, r3) ← parsePart 16 r2
  let (opts, r4) ← parsePart 2 r3
  if ver = 0 ∧ (r4 ≠ [] ∨ 2 < opts) then none else
  let sc : SpanContext := ⟨tid, sid, opts % 2 == 1⟩
  if sc.isValid then some sc else none

/-- Header maps (bus or HTTP headers), as a string-keyed association list. -/
abbrev Headers := List (String × String)

/-- Go map read with the empty string as default (the carrier `Get`). -/
def getHeader (hs : Headers) (k : String) : String :=
  ((hs.find? fun p => p.1 == k).map Prod.snd).getD ""

/-- Go map write: replaces any existing entry for the key. -/
def setHeader (hs : Headers) (k v : String) : Headers :=
  (k, v) :: hs.filter fun p => p.1 != k

/-- InjectTrace writes the W3C `traceparent` header for the context's span
identity; with no valid identity it writes nothing. -/
def InjectTrace (sc : SpanContext) (hs : Headers) : Headers :=
  if sc.isValid then setHeader hs "traceparent" (String.mk (traceparentChars sc))
  else hs

/-- ExtractTrace reads the `traceparent` header and returns the span context
it carries, or `none` (a context with no valid span context). -/
def ExtractTrace (hs : Headers) : Option SpanContext :=
  extractTraceparentChars (getHeader hs "traceparent").data

/-! ## Domain context and the Go context chain

From `sdk/go/ampyobs/context.go`.  A Go `context.Context` is modelled as the
chain of values installed by `context.WithValue`, innermost first; a lookup
returns the innermost entry for its key.  The private `domainKey` and the
tracer's span-context key are the two keys the embedded code reads. -/

/-- DomainContext carries the optional business identifiers attached to
logs. -/
structure DomainContext where
  runID : String
  asOfISO : String
  universeID : String
  messageID : String
  clientOrderID : String
  symbol : String
  mic : String
deriving DecidableEq, Repr

/-- The Go zero value of DomainContext: all fields empty. -/
def zeroDomainContext : DomainContext :=
  ⟨"", "", "", "", "", "", ""⟩

/-- toZapFields renders the non-empty fields, in declaration order. -/
def DomainContext.toZapFields (d : DomainContext) : List (String × String) :=
  (if d.runID ≠ "" then [("run_id", d.runID)] else []) ++
  (if d.asOfISO ≠ "" then [("as_of", d.asOfISO)] else []) ++
  (if d.universeID ≠ "" then [("universe_id", d.universeID)] else []) ++
  (if d.messageID ≠ "" then [("message_id", d.messageID)] else []) ++
  (if d.clientOrderID ≠ "" then [("client_order_id", d.clientOrderID)] else []) ++
  (if d.symbol ≠ "" then [("symbol", d.symbol)] else []) ++
  (if d.mic ≠ "" then [("mic", d.mic)] else [])

/-- One value installed on a Go context: a domain context under the private
`domainKey`, a span context under the tracer's key, or an unrelated pair. -/
inductive CtxEntry
  | domain (dc : DomainContext)
  | span (sc : SpanContext)
  | other (k v : String)
deriving DecidableEq, Repr

/-- A Go context chain, innermost value first. -/
abbrev Ctx := List CtxEntry

/-- WithDomainContext wraps the context with the domain value
(`context.WithValue(ctx, domainKey, dc)`). -/
def WithDomainContext (ctx : Ctx) (dc : DomainContext) : Ctx :=
  .domain dc :: ctx

/-- The `ctx.Value(domainKey)` lookup: innermost domain entry, if any. -/
def ctxDomainValue : Ctx → Option DomainContext
  | [] => none
  | .domain dc :: _ => some dc
  | _ :: rest => ctxDomainValue rest

/-- FromDomainContext returns the stored domain context and an ok flag, or
the zero value and false when none was stored. -/
def FromDomainContext (ctx : Ctx) : DomainContext × Bool :=
  match ctxDomainValue ctx with
  | none => (zeroDomainContext, false)
  | some dc => (dc, true)

/-- The `trace.SpanContextFromContext` lookup: the innermost span context on
the chain, or the invalid all-zero context. -/
def spanContextFromContext : Ctx → SpanContext
  | [] => ⟨0, 0, false⟩
  | .span sc :: _ => sc
  | _ :: rest => spanContextFromContext rest

/-! ## Loggers

`zapLogger.log` from `sdk/go/ampyobs/logging.go` and `L`/`C` from
`go/ampyobs/logger.go`.  A log record's fields are modelled as the ordered
key/value list the logger assembles and hands to the encoder. -/

/-- The service-identity configuration fields the loggers and metric helpers
read from the global Config. -/
structure Config where
  serviceName : String
  serviceVersion : String
  environment : String
deriving DecidableEq, Repr

/-- The field list `zapLogger.log` assembles: static meta fields, then
trace/span ids when the context carries a valid span context, then the
domain-context fields when present, then the caller's fields — no scrubbing
of any value. -/
def zapLoggerLog (meta : List (String × String)) (ctx : Ctx)
    (kv : List (String × String)) : List (String × String) :=
  let fields := meta
  let sc := spanContextFromContext ctx
  let fields :=
    if sc.isValid then
      fields ++ [("trace_id", String.mk (encodeHex 32 sc.traceId)),
        ("span_id", String.mk (encodeHex 16 sc.spanId))]
    else fields
  let fields :=
    match FromDomainContext ctx with
    | (dc, true) => fields ++ dc.toZapFields
    | (_, false) => fields
  fields ++ kv

/-- The domain-field block `zapLoggerLog` appends: the stored domain
context's rendered fields, or nothing. -/
def domainFieldsOf (ctx : Ctx) : List (String × String) :=
  match FromDomainContext ctx with
  | (dc, true) => dc.toZapFields
  | (_, false) => []

/-- The fields `L` attaches to every record: service identity from the
global config. -/
def Lfields (cfg : Config) : List (String × String) :=
  [("service", cfg.serviceName), ("env", cfg.environment),
    ("service_version", cfg.serviceVersion)]

/-- The fields of the context-aware logger `C`: the `L` fields plus
trace/span ids exactly when the context carries a valid span context. -/
def Cfields (cfg : Config) (ctx : Ctx) : List (String × String) :=
  let l := Lfields cfg
  let sc := spanContextFromContext ctx
  if sc.isValid then
    l ++ [("trace_id", String.mk (encodeHex 32 sc.traceId)),
      ("span_id", String.mk (encodeHex 16 sc.spanId))]
  else l

/-- The nil guard in `L`: with no root logger yet, `setupSlog` builds one;
the call never dereferences a missing logger.  The logger value is modelled
by its handler name. -/
def Lguard (rootLogger : Option String) : String :=
  match rootLogger with
  | none => "slog-json-stdout"
  | some l => l

/-! ## Span starting

`StartSpan` from `go/ampyobs/tracing.go`.  It obtains the global tracer via
`otel.Tracer("ampyobs")` and delegates to its `Start`.  The provider state
behind that global is a dependency, modelled from its documented behavior:
`Init` installs the SDK provider only when `EnableTracing` is true, and in
every other state — `Init` never called included — the OTel global is the
default noop provider, so `otel.Tracer` never returns nil.  The fresh span
identity the SDK tracer would draw from its random source is passed
explicitly. -/

/-- The provider behind the `otel.Tracer` global: the SDK provider once
installed by Init, otherwise the OTel default noop provider — never nil. -/
inductive TracerProvider
  | sdk
  | noop
deriving DecidableEq, Repr

/-- The tracer-provider global after startup, as `Init` leaves it. -/
def tracerProviderAfterInit (initCalled enableTracing : Bool) : TracerProvider :=
  if initCalled && enableTracing then .sdk else .noop

/-- A started span: conventional name, kind, the attributes passed at
start, and whether it records (false under the noop tracer). -/
structure Span where
  name : String
  kind : String
  attrs : List (String × String)
  recording : Bool
deriving DecidableEq, Repr

/-- StartSpan: builds the span-start options (kind and attributes) and
calls the global tracer's Start, returning the child context and the span.
The SDK tracer installs the freshly drawn span identity on the returned
context; the noop tracer returns a non-recording span and leaves the
context as it was.  In both provider states the call returns a span — there
is no error or panic path. -/
def StartSpan (tp : TracerProvider) (fresh : SpanContext) (ctx : Ctx)
    (nm kind : String) (attrs : List (String × String)) : Ctx × Span :=
  match tp with
  | .sdk => (CtxEntry.span fresh :: ctx, ⟨nm, kind, attrs, true⟩)
  | .noop => (ctx, ⟨nm, kind, attrs, false⟩)

/-! ## OpenTelemetry metric recording helpers

From `go/ampyobs/logger.go` (instrument globals, `initMetrics`, and the
recording helpers) and `go/ampyobs/obs.go` (`Init`).  Each global instrument
is a package-level variable that stays nil until `initMetrics` runs, which
happens only inside `Init` and only when `EnableMetrics` is true.  Calling a
method on a nil instrument interface is a Go runtime panic, modelled as
`Except.error`. -/

/-- An OpenTelemetry instrument, identified by its registered name. -/
structure Instrument where
  name : String
deriving DecidableEq, Repr

/-- The six instruments `initMetrics` registers. -/
structure Instruments where
  busProduced : Instrument
  busConsumed : Instrument
  busDeliveryLatency : Instrument
  omsOrderSubmit : Instrument
  omsOrderLatency : Instrument
  omsRejections : Instrument
deriving DecidableEq, Repr

/-- initMetrics constructs the six instruments with their registered
names. -/
def initMetrics : Instruments :=
  ⟨⟨"ampy.bus.produced_total"⟩, ⟨"ampy.bus.consumed_total"⟩,
    ⟨"ampy.bus.delivery_latency_ms"⟩, ⟨"ampy.oms.order_submit_total"⟩,
    ⟨"ampy.oms.order_latency_ms"⟩, ⟨"ampy.oms.rejections_total"⟩⟩

/-- The instrument globals after startup: populated only by an `Init` call
with `EnableMetrics` true; `none` when `Init` was never called or metrics
were disabled. -/
def metricsStateAfterInit (initCalled enableMetrics : Bool) : Option Instruments :=
  if initCalled && enableMetrics then some initMetrics else none

/-- One recorded measurement handed to the OpenTelemetry pipeline: the
instrument name, the value, and the attribute set. -/
structure Recorded where
  instrument : String
  value : ℚ
  attrs : List (String × String)
deriving DecidableEq, Repr

/-- The Go panic message for a method call through a nil interface. -/
def nilPanic : String :=
  "runtime error: invalid memory address or nil pointer dereference"

/-- BusProducedAdd: `busProduced.Add(ctx, n, topic/service/env)`.  On a nil
instrument the method call panics; otherwise the measurement is recorded
with the attribute values exactly as supplied. -/
def BusProducedAdd (busProduced : Option Instrument) (cfg : Config)
    (topic : String) (n : Int) : Except String Recorded :=
  match busProduced with
  | none => .error nilPanic
  | some c => .ok ⟨c.name, (n : ℚ),
      [("topic", topic), ("service", cfg.serviceName), ("env", cfg.environment)]⟩

/-- BusConsumedAdd: `busConsumed.Add(ctx, n, topic/service/env)`. -/
def BusConsumedAdd (busConsumed : Option Instrument) (cfg : Config)
    (topic : String) (n : Int) : Except String Recorded :=
  match busConsumed with
  | none => .error nilPanic
  | some c => .ok ⟨c.name, (n : ℚ),
      [("topic", topic), ("service", cfg.serviceName), ("env", cfg.environment)]⟩

/-- BusDeliveryLatencyMs: `busDeliveryLatency.Record(ctx, ms, ...)`. -/
def BusDeliveryLatencyMs (busDeliveryLatency : Option Instrument) (cfg : Config)
    (topic : String) (ms : ℚ) : Except String Recorded :=
  match busDeliveryLatency with
  | none => .error nilPanic
  | some c => .ok ⟨c.name, ms,
      [("topic", topic), ("service", cfg.serviceName), ("env", cfg.environment)]⟩

/-- OMSOrderSubmitAdd: `omsOrderSubmit.Add(ctx, 1, broker/outcome/...)`. -/
def OMSOrderSubmitAdd (omsOrderSubmit : Option Instrument) (cfg : Config)
    (broker outcome : String) : Except String Recorded :=
  match omsOrderSubmit with
  | none => .error nilPanic
  | some c => .ok ⟨c.name, 1,
      [("broker", broker), ("outcome", outcome),
        ("service", cfg.serviceName), ("env", cfg.environment)]⟩

/-- OMSOrderLatencyMs: `omsOrderLatency.Record(ctx, ms, broker/...)`. -/
def OMSOrderLatencyMs (omsOrderLatency : Option Instrument) (cfg : Config)
    (broker : String) (ms : ℚ) : Except String Recorded :=
  match omsOrderLatency with
  | none => .error nilPanic
  | some c => .ok ⟨c.name, ms,
      [("broker", broker), ("service", cfg.serviceName), ("env", cfg.environment)]⟩

/-- OMSRejectAdd: `omsRejections.Add(ctx, 1, broker/reason/...)`. -/
def OMSRejectAdd (omsRejections : Option Instrument) (cfg : Config)
    (broker reason : String) : Except String Recorded :=
  match omsRejections with
  | none => .error nilPanic
  | some c => .ok ⟨c.name, 1,
      [("broker", broker), ("reason", reason),
        ("service", cfg.serviceName), ("env", cfg.environment)]⟩

/-! ## Prometheus counter registration and label validation

`Metrics.NewCounter` from the SDK metrics file registers a `CounterVec`
with the fixed variable label names `domain`, `outcome`, `reason`.  Label
lookup for a recording call models `prometheus.MetricVec.hashLabels` (the
check behind `With`/`GetMetricWith`, a dependency outside the repository
sources): the supplied label set must have exactly the registered names —
a length mismatch or a missing registered name is an error, and `With`
panics on that error. -/

/-- A registered Prometheus counter vector: fully qualified name and the
fixed variable label names. -/
structure CounterVec where
  fqName : String
  help : String
  variableLabels : List String
deriving DecidableEq, Repr

/-- Metrics.NewCounter: builds the CounterVec with label names
`domain`, `outcome`, `reason` and registers it. -/
def MetricsNewCounter (ns nm help : String) : CounterVec :=
  ⟨ns ++ "_" ++ nm, help, ["domain", "outcome", "reason"]⟩

/-- First value for a label key in the supplied label map. -/
def lookupLabel (labels : List (String × String)) (k : String) : Option String :=
  (labels.find? fun p => p.1 == k).map Prod.snd

/-- The per-name resolution loop of `hashLabels`: each registered label
name must be present in the supplied map. -/
def resolveLabels (names : List String) (labels : List (String × String)) :
    Except String (List String) :=
  match names with
  | [] => .ok []
  | n :: rest =>
    match lookupLabel labels n with
    | none => .error ("label name missing in label map: " ++ n)
    | some v =>
      match resolveLabels rest labels with
      | .ok vs => .ok (v :: vs)
      | .error e => .error e

/-- The label check performed on every recording call: a cardinality
mismatch with the registered names is an error, then every registered name
is resolved in the supplied map.  `With` panics when this fails. -/
def hashLabels (cv : CounterVec) (labels : List (String × String)) :
    Except String (List String) :=
  if labels.length ≠ cv.variableLabels.length then
    .error "inconsistent label cardinality"
  else
    resolveLabels cv.variableLabels labels

/-! ## Sampler selection

From `newTracerProvider` in `go/ampyobs/obs.go`: the sampler starts as
parent-based with a 0.25 trace-id-ratio root; a `ratio` Sampler config
replaces the root probability only when it lies within the closed unit
interval.  The float comparison is modelled on ℚ. -/

/-- ASCII lowercase of a character, the case `strings.ToLower` applies to
the sampler names involved. -/
def goLowerChar (c : Char) : Char :=
  if 65 ≤ c.toNat ∧ c.toNat ≤ 90 then Char.ofNat (c.toNat + 32) else c

/-- Models `strings.ToLower` on the ASCII range. -/
def goToLower (s : String) : String :=
  String.mk (s.data.map goLowerChar)

/-- The chosen sampler: always parent-based here, with the root
probability used for the trace-id-ratio decision. -/
structure SamplerChoice where
  parentBased : Bool
  rootProb : ℚ
deriving DecidableEq, Repr

/-- The sampler-selection logic of `newTracerProvider`: default
parent-based 0.25; a `ratio` config in [0,1] replaces the probability; an
out-of-range value keeps the default; `parent`, empty, and unknown names
keep the default. -/
def chooseSampler (samplerCfg : String) (r : ℚ) : SamplerChoice :=
  let default : SamplerChoice := ⟨true, 1/4⟩
  if goToLower samplerCfg = "ratio" then
    if 0 ≤ r ∧ r ≤ 1 then ⟨true, r⟩ else default
  else default

/-! ## Export buffer

Modelled from the spec: the Export Buffer is realized by the OpenTelemetry
batch span processor that `newTracerProvider` configures
(`WithMaxExportBatchSize`, `WithBatchTimeout`); its queue implementation is
a dependency, not under the repository sources.  The spec fixes the
contract: a bounded queue whose non-blocking enqueue drops the new record
when full and increments a dropped counter once per dropped record. -/

/-- A bounded export queue for one signal kind with its drop counter.
Records are identified by number. -/
structure ExportBuffer where
  capacity : Nat
  queue : List Nat
  dropped : Nat
deriving DecidableEq, Repr

/-- A fresh buffer with a fixed capacity. -/
def ExportBuffer.empty (capacity : Nat) : ExportBuffer :=
  ⟨capacity, [], 0⟩

/-- Non-blocking enqueue: append when there is room, otherwise drop the
record and count it. -/
def enqueueDrop (b : ExportBuffer) (r : Nat) : ExportBuffer :=
  if b.queue.length < b.capacity then ⟨b.capacity, b.queue ++ [r], b.dropped⟩
  else ⟨b.capacity, b.queue, b.dropped + 1⟩

/-- Enqueue a whole sequence of records in order. -/
def enqueueAll (b : ExportBuffer) : List Nat → ExportBuffer
  | [] => b
  | r :: rs => enqueueAll (enqueueDrop b r) rs

/-! ## Endpoint parsing

`parseEndpoint` from `go/ampyobs/obs.go`, with the fragments of Go's
`net/url.Parse` (scheme detection, authority/host extraction, port
validation) and `net.SplitHostPort` that it relies on modelled from the Go
standard library behavior.  Percent-escape validation inside host names is
not modelled. -/

/-- ASCII letter. -/
def isAlphaChar (c : Char) : Bool :=
  (65 ≤ c.toNat && c.toNat ≤ 90) || (97 ≤ c.toNat && c.toNat ≤ 122)

/-- ASCII digit. -/
def isDigitChar (c : Char) : Bool :=
  48 ≤ c.toNat && c.toNat ≤ 57

/-- Characters allowed after the first position of a URL scheme. -/
def isSchemeTailChar (c : Char) : Bool :=
  isDigitChar c || c == '+' || c == '-' || c == '.'

/-- Outcome of Go `getScheme`: no scheme (rest is the whole input), a
malformed leading colon, or a scheme of the given length. -/
inductive SchemeResult
  | noScheme
  | badColon
  | schemeLen (n : Nat)
deriving DecidableEq, Repr

/-- The scan of Go `net/url.getScheme`: letters continue a scheme; digits
and `+ - .` continue it except at position zero; a colon at position zero
is an error, elsewhere it ends the scheme; any other character means the
input has no scheme. -/
def getSchemeAux : List Char → Nat → SchemeResult
  | [], _ => .noScheme
  | c :: cs, i =>
    if isAlphaChar c then getSchemeAux cs (i + 1)
    else if isSchemeTailChar c then
      if i = 0 then .noScheme else getSchemeAux cs (i + 1)
    else if c = ':' then
      if i = 0 then .badColon else .schemeLen i
    else .noScheme

/-- getScheme over a whole input. -/
def getScheme (s : List Char) : SchemeResult :=
  getSchemeAux s 0

/-- Go `validOptionalPort`: empty, or a colon followed by digits only. -/
def validOptionalPort (l : List Char) : Bool :=
  match l with
  | [] => true
  | ':' :: rest => rest.all isDigitChar
  | _ => false

/-- Index (from the right) handling for the last colon: the part of `l`
after the last colon, with the prefix before it. -/
def splitAtLastColon (l : List Char) : Option (List Char × List Char) :=
  if l.contains ':' then
    let rev := l.reverse
    let after := (rev.takeWhile fun c => c != ':').reverse
    let before := (rev.dropWhile fun c => c != ':').drop 1 |>.reverse
    some (before, after)
  else none

/-- Go `net/url.parseHost` for the non-escaped cases: a bracketed IPv6 host
must close its bracket and may be followed by a valid port; otherwise
everything after the last colon, if any, must be a valid port.  Returns the
host (with port) unchanged, or `none` on an invalid port or bracketing. -/
def parseHost (host : List Char) : Option (List Char) :=
  match host with
  | '[' :: rest =>
    if rest.contains ']' then
      let inside := rest.takeWhile fun c => c != ']'
      let afterBracket := (rest.dropWhile fun c => c != ']').drop 1
      if validOptionalPort afterBracket && !inside.contains '[' then some host else none
    else none
  | _ =>
    if host.contains '[' || host.contains ']' then none
    else
      match splitAtLastColon host with
      | none => some host
      | some (before, after) =>
        if before.contains ':' then none
        else if validOptionalPort (':' :: after) then some host else none

/-- Go `net/url.parseAuthority` host part: strip the userinfo before the
last `@`, then parse the host. -/
def parseAuthorityHost (authority : List Char) : Option (List Char) :=
  if authority.contains '@' then
    let rev := authority.reverse
    let host := (rev.takeWhile fun c => c != '@').reverse
    parseHost host
  else parseHost authority

/-- The fragment of Go `net/url.Parse` that `parseEndpoint` observes: the
scheme (lowercased, empty when absent) and the `Host` field, or `none` for
a parse error.  Mirrors: fragment cut at `#`; `getScheme`; query cut at
`?`; an opaque rest (no leading slash) for a scheme-ful URL has an empty
host; a scheme-less first segment containing a colon is an error; an
authority after `//` runs up to the next slash and its host must parse. -/
def urlParseModel (s : List Char) : Option (String × String) :=
  let noFrag := s.takeWhile fun c => c != '#'
  match getScheme noFrag with
  | .badColon => none
  | .noScheme =>
    let rest := noFrag.takeWhile fun c => c != '?'
    if rest.head? = some '/' then
      if rest.take 2 = ['/', '/'] ∧ rest.take 3 ≠ ['/', '/', '/'] then
        let authority := (rest.drop 2).takeWhile fun c => c != '/'
        match parseAuthorityHost authority with
        | none => none
        | some host => some ("", String.mk host)
      else some ("", "")
    else
      let segment := rest.takeWhile fun c => c != '/'
      if segment.contains ':' then none
      else some ("", "")
  | .schemeLen n =>
    let scheme := String.mk ((noFrag.take n).map goLowerChar)
    let restAll := noFrag.drop (n + 1)
    let rest := restAll.takeWhile fun c => c != '?'
    if rest.take 2 = ['/', '/'] then
      let authority := (rest.drop 2).takeWhile fun c => c != '/'
      match parseAuthorityHost authority with
      | none => none
      | some host => some (scheme, String.mk host)
    else some (scheme, "")

/-- Go `net.SplitHostPort`: split at the last colon, rejecting inputs with
no colon, colons inside an unbracketed host, or bad bracketing; on error
both results are empty, as `parseEndpoint` observes after discarding the
error. -/
def splitHostPortModel (s : List Char) : List Char × List Char :=
  match s with
  | '[' :: rest =>
    if rest.contains ']' then
      let inside := rest.takeWhile fun c => c != ']'
      let afterBracket := (rest.dropWhile fun c => c != ']').drop 1
      match afterBracket with
      | ':' :: port => if port.contains ':' then ([], []) else (inside, port)
      | _ => ([], [])
    else ([], [])
  | _ =>
    match splitAtLastColon s with
    | none => ([], [])
    | some (before, after) =>
      if before.contains ':' || before.contains '[' || before.contains ']' ||
          after.contains '[' || after.contains ']' then ([], [])
      else (before, after)

/-- The scheme-less fallback branch of parseEndpoint: split host and port;
with no port keep the raw input, with an empty host default it to
localhost; insecure in every case. -/
def parseEndpointHostPort (raw : String) : String × Bool :=
  let hp := splitHostPortModel raw.data
  if String.mk hp.2 = "" then (raw, true)
  else if String.mk hp.1 = "" then ("localhost:" ++ String.mk hp.2, true)
  else (raw, true)

/-- parseEndpoint from `go/ampyobs/obs.go`: empty input defaults to the
local insecure collector; a URL with a scheme yields its host with
insecure exactly for `http`; everything else falls back to host:port
splitting and is always insecure. -/
def parseEndpoint (raw : String) : String × Bool :=
  if raw = "" then ("localhost:4317", true)
  else
    match urlParseModel raw.data with
    | some (scheme, host) =>
      if scheme = "" then parseEndpointHostPort raw
      else (host, scheme = "http")
    | none => parseEndpointHostPort raw

/-! ## Theorems -/

theorem hexDigitVal_lt (c : Char) (d : Nat) (h : hexDigitVal c = some d) : d < 16 := by
  simp only [hexDigitVal] at h
  split_ifs at h <;> simp only [Option.some.injEq] at h <;> omega

theorem natToHexChar_val : ∀ d < 16, hexDigitVal (natToHexChar d) = some d := by decide

theorem natToHexChar_ne_dash : ∀ d < 16, natToHexChar d ≠ '-' := by decide

theorem encodeHex_length (k n : Nat) : (encodeHex k n).length = k := by
  induction k generalizing n with
  | zero => rfl
  | succ k ih => simp [encodeHex, ih]

theorem encodeHex_mem_ne_dash (k n : Nat) (c : Char) (hc : c ∈ encodeHex k n) :
    c ≠ '-' := by
  induction k generalizing n with
  | zero => simp [encodeHex] at hc
  | succ k ih =>
    simp only [encodeHex, List.mem_append, List.mem_singleton] at hc
    rcases hc with hc | hc
    · exact ih _ hc
    · subst hc
      exact natToHexChar_ne_dash (n % 16) (Nat.mod_lt _ (by omega))

theorem decodeHexCore_append (xs ys : List Char) (acc : Nat) :
    decodeHexCore (xs ++ ys) acc =
      (decodeHexCore xs acc).bind fun m => decodeHexCore ys m := by
  induction xs generalizing acc with
  | nil => rfl
  | cons c cs ih =>
    simp only [List.cons_append, decodeHexCore]
    cases hd : hexDigitVal c with
    | some d => exact ih _
    | none => rfl

theorem decodeHexCore_encodeHex (k : Nat) :
    ∀ n acc, n < 16 ^ k →
      decodeHexCore (encodeHex k n) acc = some (16 ^ k * acc + n) := by
  induction k with
  | zero =>
    intro n acc hn
    interval_cases n
    simp [encodeHex, decodeHexCore]
  | succ k ih =>
    intro n acc hn
    have hdiv : n / 16 < 16 ^ k := by
      rw [Nat.div_lt_iff_lt_mul (by omega)]
      calc n < 16 ^ (k + 1) := hn
        _ = 16 ^ k * 16 := by rw [pow_succ]
    rw [encodeHex, decodeHexCore_append, ih (n / 16) acc hdiv]
    simp only [Option.some_bind, decodeHexCore,
      natToHexChar_val (n % 16) (Nat.mod_lt _ (by omega))]
    congr 1
    have hmod := Nat.div_add_mod n 16
    rw [pow_succ]
    ring_nf
    omega

theorem decodeHex_encodeHex (k n : Nat) (hn : n < 16 ^ k) :
    decodeHex (encodeHex k n) = some n := by
  rw [decodeHex, decodeHexCore_encodeHex k n 0 hn]
  simp

theorem decodeHexCore_lt (l : List Char) :
    ∀ acc n, decodeHexCore l acc = some n → n < (acc + 1) * 16 ^ l.length := by
  induction l with
  | nil =>
    intro acc n h
    simp only [decodeHexCore, Option.some.injEq] at h
    subst h
    simp
  | cons c cs ih =>
    intro acc n h
    simp only [decodeHexCore] at h
    cases hd : hexDigitVal c with
    | none => rw [hd] at h; cases h
    | some d =>
      rw [hd] at h
      have hdlt := hexDigitVal_lt c d hd
      have := ih (acc * 16 + d) n h
      have hle : (acc * 16 + d + 1) * 16 ^ cs.length ≤ (acc + 1) * 16 ^ (c :: cs).length := by
        simp only [List.length_cons, pow_succ]
        have h16 : (0 : Nat) < 16 ^ cs.length := Nat.pos_pow_of_pos _ (by omega)
        calc (acc * 16 + d + 1) * 16 ^ cs.length
            ≤ ((acc + 1) * 16) * 16 ^ cs.length := by
              apply Nat.mul_le_mul_right
              omega
          _ = (acc + 1) * (16 ^ cs.length * 16) := by ring
      omega

theorem decodeHex_lt (l : List Char) (n : Nat) (h : decodeHex l = some n) :
    n < 16 ^ l.length := by
  have := decodeHexCore_lt l 0 n h
  simpa using this

theorem cutDash_append_dash (xs ys : List Char) (hxs : ∀ c ∈ xs, c ≠ '-') :
    cutDash (xs ++ '-' :: ys) = (xs, ys) := by
  induction xs with
  | nil => simp [cutDash]
  | cons c cs ih =>
    have hc : c ≠ '-' := hxs c (by simp)
    have hcs : ∀ a ∈ cs, a ≠ '-' := fun a ha => hxs a (by simp [ha])
    have hcb : (c != '-') = true := by simpa using hc
    have := ih hcs
    simp only [cutDash, List.cons_append, List.takeWhile_cons, List.dropWhile_cons, hcb,
      if_true] at *
    simp only [Prod.mk.injEq] at this ⊢
    exact ⟨by simp [this.1], this.2⟩

theorem cutDash_no_dash (l : List Char) (hl : ∀ c ∈ l, c ≠ '-') :
    cutDash l = (l, []) := by
  induction l with
  | nil => simp [cutDash]
  | cons c cs ih =>
    have hc : (c != '-') = true := by simpa using hl c (by simp)
    have hcs : ∀ a ∈ cs, a ≠ '-' := fun a ha => hl a (by simp [ha])
    have := ih hcs
    simp only [cutDash, List.takeWhile_cons, List.dropWhile_cons, hc, if_true,
      Prod.mk.injEq] at *
    exact ⟨by simp [this.1], this.2⟩

theorem parsePart_encode_dash (n v : Nat) (rest : List Char) (hv : v < 16 ^ n) :
    parsePart n (encodeHex n v ++ '-' :: rest) = some (v, rest) := by
  rw [parsePart, cutDash_append_dash _ _ (fun c hc => encodeHex_mem_ne_dash n v c hc)]
  simp [encodeHex_length, decodeHex_encodeHex n v hv]

theorem parsePart_encode_end (n v : Nat) (hv : v < 16 ^ n) :
    parsePart n (encodeHex n v) = some (v, []) := by
  rw [parsePart, cutDash_no_dash _ (fun c hc => encodeHex_mem_ne_dash n v c hc)]
  simp [encodeHex_length, decodeHex_encodeHex n v hv]

theorem parsePart_lt (n : Nat) (h : List Char) (v : Nat) (r : List Char)
    (hp : parsePart n h = some (v, r)) : v < 16 ^ n := by
  rw [parsePart] at hp
  split_ifs at hp with hlen
  · cases hd : decodeHex (cutDash h).1 with
    | none => rw [hd] at hp; cases hp
    | some w =>
      rw [hd] at hp
      simp only [Option.some.injEq, Prod.mk.injEq] at hp
      have := decodeHex_lt _ _ hd
      rw [hlen] at this
      omega

theorem getHeader_setHeader (hs : Headers) (k v : String) :
    getHeader (setHeader hs k v) k = v := by
  simp [getHeader, setHeader, List.find?]

/-- C3: for every context carrying a valid trace/span identity (both ids
nonzero and within their 128-bit/64-bit widths), injecting it into any header
map with InjectTrace and then extracting from that map with ExtractTrace
returns exactly the original identity for the wire-format fields: trace id,
span id and sampled flag.  The exception for freshly generated root ids is
vacuous here: with no valid identity the propagator writes nothing. -/
theorem claim_C3_extract_inject_roundtrip (sc : SpanContext) (hs : Headers)
    (hvalid : sc.isValid = true) (hb : sc.inBounds) :
    ExtractTrace (InjectTrace sc hs) = some sc := by
  obtain ⟨hb1, hb2⟩ := hb
  have hdm : (String.mk (traceparentChars sc)).data = traceparentChars sc := rfl
  cases hsamp : sc.sampled with
  | true =>
    have h1 : traceparentChars sc =
        encodeHex 2 0 ++ '-' :: (encodeHex 32 sc.traceId ++ '-' ::
          (encodeHex 16 sc.spanId ++ '-' :: encodeHex 2 1)) := by
      simp only [traceparentChars, hsamp, if_true]
      rfl
    have hne : encodeHex 2 0 ++ '-' :: (encodeHex 32 sc.traceId ++ '-' ::
        (encodeHex 16 sc.spanId ++ '-' :: encodeHex 2 1)) ≠ [] := by
      simp
    have h2 := parsePart_encode_dash 2 0
      (encodeHex 32 sc.traceId ++ '-' :: (encodeHex 16 sc.spanId ++ '-' :: encodeHex 2 1))
      (by norm_num)
    have h3 := parsePart_encode_dash 32 sc.traceId
      (encodeHex 16 sc.spanId ++ '-' :: encodeHex 2 1) hb1
    have h4 := parsePart_encode_dash 16 sc.spanId (encodeHex 2 1) hb2
    have h5 := parsePart_encode_end 2 1 (by norm_num)
    simp only [ExtractTrace, InjectTrace, hvalid, if_true, getHeader_setHeader, hdm, h1]
    rw [extractTraceparentChars, if_neg hne, h2]
    simp only [Option.bind_eq_bind, Option.some_bind, h3, h4, h5]
    have hsc : (⟨sc.traceId, sc.spanId, true⟩ : SpanContext) = sc := by
      cases sc
      simp_all
    simp [hsc, hvalid]
  | false =>
    have h1 : traceparentChars sc =
        encodeHex 2 0 ++ '-' :: (encodeHex 32 sc.traceId ++ '-' ::
          (encodeHex 16 sc.spanId ++ '-' :: encodeHex 2 0)) := by
      simp only [traceparentChars, hsamp, if_false]
      rfl
    have hne : encodeHex 2 0 ++ '-' :: (encodeHex 32 sc.traceId ++ '-' ::
        (encodeHex 16 sc.spanId ++ '-' :: encodeHex 2 0)) ≠ [] := by
      simp
    have h2 := parsePart_encode_dash 2 0
      (encodeHex 32 sc.traceId ++ '-' :: (encodeHex 16 sc.spanId ++ '-' :: encodeHex 2 0))
      (by norm_num)
    have h3 := parsePart_encode_dash 32 sc.traceId
      (encodeHex 16 sc.spanId ++ '-' :: encodeHex 2 0) hb1
    have h4 := parsePart_encode_dash 16 sc.spanId (encodeHex 2 0) hb2
    have h5 := parsePart_encode_end 2 0 (by norm_num)
    simp only [ExtractTrace, InjectTrace, hvalid, if_true, getHeader_setHeader, hdm, h1]
    rw [extractTraceparentChars, if_neg hne, h2]
    simp only [Option.bind_eq_bind, Option.some_bind, h3, h4, h5]
    have hsc : (⟨sc.traceId, sc.spanId, false⟩ : SpanContext) = sc := by
      cases sc
      simp_all
    simp [hsc, hvalid]

/-- Witness for C3 at a concrete sampled identity and an initially non-empty
header map. -/
theorem claim_C3_extract_inject_roundtrip_witness :
    ExtractTrace (InjectTrace ⟨0x0af7651916cd43dd8448eb211c80319c, 0xb7ad6b7169203331, true⟩
      [("content-type", "application/json")]) =
      some ⟨0x0af7651916cd43dd8448eb211c80319c, 0xb7ad6b7169203331, true⟩ :=
  claim_C3_extract_inject_roundtrip
    ⟨0x0af7651916cd43dd8448eb211c80319c, 0xb7ad6b7169203331, true⟩
    [("content-type", "application/json")] (by decide) ⟨by decide, by decide⟩

theorem extract_some_valid (h : List Char) (sc : SpanContext)
    (hsome : extractTraceparentChars h = some sc) :
    sc.traceId ≠ 0 ∧ sc.spanId ≠ 0 ∧ sc.traceId < 16 ^ 32 ∧ sc.spanId < 16 ^ 16 := by
  rw [extractTraceparentChars] at hsome
  split_ifs at hsome with h0
  simp only [Option.bind_eq_bind, Option.bind_eq_some] at hsome
  obtain ⟨⟨ver, r1⟩, hp2, hsome⟩ := hsome
  split_ifs at hsome
  simp only [Option.bind_eq_some] at hsome
  obtain ⟨⟨tid, r2⟩, hp32, hsome⟩ := hsome
  obtain ⟨⟨sid, r3⟩, hp16, hsome⟩ := hsome
  obtain ⟨⟨opts, r4⟩, hpf, hsome⟩ := hsome
  split_ifs at hsome with hcond hval
  · simp only [Option.some.injEq] at hsome
    subst hsome
    simp only [SpanContext.isValid, Bool.and_eq_true, bne_iff_ne, ne_eq] at hval
    exact ⟨hval.1, hval.2, parsePart_lt _ _ _ _ hp32, parsePart_lt _ _ _ _ hp16⟩

/-- C4: extraction never fails the caller — it is a total function into an
optional span context — and a malformed `traceparent` yields an empty
correlation context.  Part one: whenever extraction does produce a span
context, that context is a valid one (nonzero, in-width ids), so malformed
input can only produce the empty context.  The remaining parts evaluate
ExtractTrace on concrete malformed header maps: a truncated span id, the
unsupported version ff, a non-hex character, all-zero ids, and a missing
header, each yielding the empty context rather than an error. -/
theorem claim_C4_extract_malformed_empty :
    (∀ h sc, extractTraceparentChars h = some sc →
      sc.traceId ≠ 0 ∧ sc.spanId ≠ 0 ∧ sc.traceId < 16 ^ 32 ∧ sc.spanId < 16 ^ 16)
    ∧ ExtractTrace [("traceparent", "00-0af7651916cd43dd8448eb211c80319c-b7ad6b71")] = none
    ∧ ExtractTrace [("traceparent", "ff-0af7651916cd43dd8448eb211c80319c-b7ad6b7169203331-01")] = none
    ∧ ExtractTrace [("traceparent", "00-0af7651916cd43dd8448eb211c80319z-b7ad6b7169203331-01")] = none
    ∧ ExtractTrace [("traceparent", "00-00000000000000000000000000000000-0000000000000000-01")] = none
    ∧ ExtractTrace [] = none :=
  ⟨extract_some_valid, rfl, rfl, rfl, rfl, rfl⟩

/-- Witness for C4: the validity implication applied at a concrete
well-formed header value. -/
theorem claim_C4_extract_malformed_empty_witness :
    (0x0af7651916cd43dd8448eb211c80319c : Nat) ≠ 0 ∧
      (0xb7ad6b7169203331 : Nat) ≠ 0 ∧
      (0x0af7651916cd43dd8448eb211c80319c : Nat) < 16 ^ 32 ∧
      (0xb7ad6b7169203331 : Nat) < 16 ^ 16 :=
  claim_C4_extract_malformed_empty.1
    "00-0af7651916cd43dd8448eb211c80319c-b7ad6b7169203331-01".data
    ⟨0x0af7651916cd43dd8448eb211c80319c, 0xb7ad6b7169203331, true⟩ rfl


theorem ctxDomainValue_none (ctx : Ctx) (h : ∀ dc, CtxEntry.domain dc ∉ ctx) :
    ctxDomainValue ctx = none := by
  induction ctx with
  | nil => rfl
  | cons e rest ih =>
    cases e with
    | domain dc => exact absurd (List.mem_cons_self _ _) (h dc)
    | span sc =>
      show ctxDomainValue rest = none
      exact ih fun dc hmem => h dc (List.mem_cons_of_mem _ hmem)
    | other k v =>
      show ctxDomainValue rest = none
      exact ih fun dc hmem => h dc (List.mem_cons_of_mem _ hmem)

/-- C9: for every context chain and domain-context value, installing the
value with WithDomainContext and reading it back with FromDomainContext
returns exactly that value with ok true; on a chain that never saw
WithDomainContext, FromDomainContext returns the zero DomainContext and
false. -/
theorem claim_C9_domain_context_roundtrip :
    (∀ (ctx : Ctx) (dc : DomainContext),
      FromDomainContext (WithDomainContext ctx dc) = (dc, true)) ∧
    (∀ ctx : Ctx, (∀ dc, CtxEntry.domain dc ∉ ctx) →
      FromDomainContext ctx = (zeroDomainContext, false)) := by
  constructor
  · intro ctx dc
    rfl
  · intro ctx h
    rw [FromDomainContext, ctxDomainValue_none ctx h]

/-- Witness for C9 on a chain holding an unrelated value. -/
theorem claim_C9_domain_context_roundtrip_witness :
    FromDomainContext (WithDomainContext [CtxEntry.other "k" "v"]
        ⟨"run1", "", "", "", "", "AAPL", "XNAS"⟩) =
      (⟨"run1", "", "", "", "", "AAPL", "XNAS"⟩, true) ∧
    FromDomainContext [CtxEntry.other "k" "v"] = (zeroDomainContext, false) :=
  ⟨claim_C9_domain_context_roundtrip.1 [CtxEntry.other "k" "v"] _,
    claim_C9_domain_context_roundtrip.2 [CtxEntry.other "k" "v"]
      (by intro dc hmem; simp at hmem)⟩

/-- C7: whenever the ambient context carries a valid span context, the log
record assembled by `zapLogger.log` and the field set of the context-aware
logger `C` both contain the `trace_id` and the `span_id` keys; when the
span context is invalid neither path attaches them — the record is exactly
the meta, domain and caller fields. -/
theorem claim_C7_log_trace_fields (meta : List (String × String)) (ctx : Ctx)
    (kv : List (String × String)) (cfg : Config) :
    ((spanContextFromContext ctx).isValid = true →
      "trace_id" ∈ (zapLoggerLog meta ctx kv).map Prod.fst ∧
      "span_id" ∈ (zapLoggerLog meta ctx kv).map Prod.fst ∧
      "trace_id" ∈ (Cfields cfg ctx).map Prod.fst ∧
      "span_id" ∈ (Cfields cfg ctx).map Prod.fst) ∧
    ((spanContextFromContext ctx).isValid = false →
      zapLoggerLog meta ctx kv = meta ++ domainFieldsOf ctx ++ kv ∧
      Cfields cfg ctx = Lfields cfg) := by
  constructor
  · intro hv
    rcases hfd : FromDomainContext ctx with ⟨dc, b⟩
    cases b <;>
      simp [zapLoggerLog, Cfields, hv, hfd, List.mem_map, List.mem_append]
  · intro hv
    rcases hfd : FromDomainContext ctx with ⟨dc, b⟩
    cases b <;>
      simp [zapLoggerLog, Cfields, domainFieldsOf, hv, hfd]

/-- Witness for C7: a context with a valid span context gets both ids; one
without gets the bare field list. -/
theorem claim_C7_log_trace_fields_witness :
    ("trace_id" ∈ (zapLoggerLog [("service", "oms")] [CtxEntry.span ⟨1, 2, true⟩]
        [("event", "orders.submit")]).map Prod.fst ∧
      "span_id" ∈ (zapLoggerLog [("service", "oms")] [CtxEntry.span ⟨1, 2, true⟩]
        [("event", "orders.submit")]).map Prod.fst ∧
      "trace_id" ∈ (Cfields ⟨"oms", "0.1.0", "prod"⟩
        [CtxEntry.span ⟨1, 2, true⟩]).map Prod.fst ∧
      "span_id" ∈ (Cfields ⟨"oms", "0.1.0", "prod"⟩
        [CtxEntry.span ⟨1, 2, true⟩]).map Prod.fst) ∧
    (zapLoggerLog [("service", "oms")] [] [("event", "orders.submit")] =
        [("service", "oms")] ++ domainFieldsOf [] ++ [("event", "orders.submit")] ∧
      Cfields ⟨"oms", "0.1.0", "prod"⟩ [] = Lfields ⟨"oms", "0.1.0", "prod"⟩) :=
  ⟨(claim_C7_log_trace_fields [("service", "oms")] [CtxEntry.span ⟨1, 2, true⟩]
      [("event", "orders.submit")] ⟨"oms", "0.1.0", "prod"⟩).1 (by decide),
    (claim_C7_log_trace_fields [("service", "oms")] []
      [("event", "orders.submit")] ⟨"oms", "0.1.0", "prod"⟩).2 (by decide)⟩

/-- C1 counterexample: the claim says a log field keyed `secret_ref` is
exported as the fixed redaction marker, scrubbed inside the SDK before
handoff.  Evaluating the SDK's field assembly on such a field shows the
original secret value in the record handed to the export encoder, and no
marker. -/
theorem claim_C1_redaction_counterexample :
    ("secret_ref", "aws-sm://ALPACA_SECRET#value") ∈
      zapLoggerLog (Lfields ⟨"broker-alpaca", "0.1.0", "prod"⟩) []
        [("secret_ref", "aws-sm://ALPACA_SECRET#value")] ∧
    ("secret_ref", "***") ∉
      zapLoggerLog (Lfields ⟨"broker-alpaca", "0.1.0", "prod"⟩) []
        [("secret_ref", "aws-sm://ALPACA_SECRET#value")] := by
  decide

/-- C1 amended: the SDK applies no redaction at all — every caller-supplied
log field reaches the assembled record unchanged, and the metric helpers
record their label values exactly as supplied; the redaction patterns of
the project live in the collector pipeline, outside the SDK. -/
theorem claim_C1_sdk_passes_values_through :
    (∀ (meta : List (String × String)) (ctx : Ctx) (kv : List (String × String)) p,
      p ∈ kv → p ∈ zapLoggerLog meta ctx kv) ∧
    (∀ inst cfg topic n r, BusProducedAdd (some inst) cfg topic n = .ok r →
      ("topic", topic) ∈ r.attrs) := by
  constructor
  · intro meta ctx kv p hp
    simp only [zapLoggerLog]
    exact List.mem_append_right _ hp
  · intro inst cfg topic n r h
    simp only [BusProducedAdd, Except.ok.injEq] at h
    subst h
    simp

/-- Witness for C1 amended, at a concrete field and a concrete recording. -/
theorem claim_C1_sdk_passes_values_through_witness :
    ("secret_ref", "s3cr3t") ∈ zapLoggerLog [] [] [("secret_ref", "s3cr3t")] ∧
    ("topic", "ampy/prod/orders/v1") ∈
      (Recorded.mk "ampy.bus.produced_total" 1
        [("topic", "ampy/prod/orders/v1"), ("service", "oms"), ("env", "prod")]).attrs :=
  ⟨claim_C1_sdk_passes_values_through.1 [] [] [("secret_ref", "s3cr3t")]
      ("secret_ref", "s3cr3t") (by simp),
    claim_C1_sdk_passes_values_through.2 ⟨"ampy.bus.produced_total"⟩
      ⟨"oms", "0.1.0", "prod"⟩ "ampy/prod/orders/v1" 1 _ rfl⟩

theorem lookupLabel_mem (labels : List (String × String)) (k v : String)
    (h : lookupLabel labels k = some v) : k ∈ labels.map Prod.fst := by
  rw [lookupLabel] at h
  cases hf : labels.find? (fun p => p.1 == k) with
  | none => rw [hf] at h; cases h
  | some a =>
    have hp := List.find?_some hf
    have hmem := List.mem_of_find?_eq_some hf
    have hak : a.1 = k := by simpa using hp
    subst hak
    exact List.mem_map.mpr ⟨a, hmem, rfl⟩

theorem resolveLabels_mem (names : List String) (labels : List (String × String))
    (vs : List String) (h : resolveLabels names labels = .ok vs) :
    ∀ n ∈ names, n ∈ labels.map Prod.fst := by
  induction names generalizing vs with
  | nil => intro n hn; cases hn
  | cons m rest ih =>
    intro n hn
    rw [resolveLabels] at h
    cases hl : lookupLabel labels m with
    | none => rw [hl] at h; cases h
    | some v =>
      rw [hl] at h
      cases hr : resolveLabels rest labels with
      | error e => rw [hr] at h; cases h
      | ok vs2 =>
        rcases List.mem_cons.mp hn with rfl | hn2
        · exact lookupLabel_mem labels n v hl
        · exact ih vs2 hr n hn2

/-- C2 counterexample: the claim says a recording call with the extra label
key client_order_id keeps the data point, merely omitting the label, and
increments a label_violations_total counter.  Against the counter that
Metrics.NewCounter registers, the label check on that call returns an error
(so `With` panics and no point at all is produced), and no ok outcome
exists. -/
theorem claim_C2_extra_label_counterexample :
    hashLabels (MetricsNewCounter "ampy" "oms_order_submit_total" "Order submissions")
      [("domain", "oms"), ("outcome", "ok"), ("client_order_id", "co_123")] =
      .error "label name missing in label map: reason" ∧
    ∀ vs, hashLabels (MetricsNewCounter "ampy" "oms_order_submit_total" "Order submissions")
      [("domain", "oms"), ("outcome", "ok"), ("client_order_id", "co_123")] ≠ .ok vs := by
  refine ⟨rfl, fun vs h => ?_⟩
  have h0 : hashLabels (MetricsNewCounter "ampy" "oms_order_submit_total" "Order submissions")
      [("domain", "oms"), ("outcome", "ok"), ("client_order_id", "co_123")] =
      .error "label name missing in label map: reason" := rfl
  rw [h0] at h
  exact Except.noConfusion h

/-- C2 amended: a counter registered by Metrics.NewCounter fixes the label
names (domain, outcome, reason); every recording call whose label set
contains the extra key client_order_id fails the label check — the data
point is rejected, not kept with the label dropped, and no
label_violations_total counter exists in the code. -/
theorem claim_C2_extra_label_rejected (ns nm help : String)
    (labels : List (String × String))
    (hmem : "client_order_id" ∈ labels.map Prod.fst) :
    ∃ e, hashLabels (MetricsNewCounter ns nm help) labels = .error e := by
  rw [hashLabels]
  by_cases hlen : labels.length = (MetricsNewCounter ns nm help).variableLabels.length
  · rw [if_neg (not_not_intro hlen)]
    cases hres : resolveLabels (MetricsNewCounter ns nm help).variableLabels labels with
    | error e => exact ⟨e, rfl⟩
    | ok vs =>
      exfalso
      have hmems := resolveLabels_mem _ _ _ hres
      have hd : "domain" ∈ labels.map Prod.fst := hmems _ (by simp [MetricsNewCounter])
      have ho : "outcome" ∈ labels.map Prod.fst := hmems _ (by simp [MetricsNewCounter])
      have hr : "reason" ∈ labels.map Prod.fst := hmems _ (by simp [MetricsNewCounter])
      have hsub : ({"domain", "outcome", "reason", "client_order_id"} : Finset String) ⊆
          (labels.map Prod.fst).toFinset := by
        intro x hx
        simp only [Finset.mem_insert, Finset.mem_singleton] at hx
        rcases hx with rfl | rfl | rfl | rfl
        exacts [List.mem_toFinset.mpr hd, List.mem_toFinset.mpr ho,
          List.mem_toFinset.mpr hr, List.mem_toFinset.mpr hmem]
      have h4 : ({"domain", "outcome", "reason", "client_order_id"} : Finset String).card = 4 := by
        decide
      have hle := Finset.card_le_card hsub
      have hlen2 : (labels.map Prod.fst).toFinset.card ≤ (labels.map Prod.fst).length :=
        List.toFinset_card_le _
      rw [List.length_map] at hlen2
      simp only [MetricsNewCounter, List.length_cons, List.length_nil] at hlen
      omega
  · rw [if_pos hlen]
    exact ⟨_, rfl⟩

/-- Witness for C2 amended: a concrete call with all three registered names
plus the extra key. -/
theorem claim_C2_extra_label_rejected_witness :
    ∃ e, hashLabels (MetricsNewCounter "ampy" "bus_produced_total" "msgs")
      [("domain", "bars"), ("outcome", "ok"), ("reason", "r"), ("client_order_id", "co_123")] =
      .error e :=
  claim_C2_extra_label_rejected "ampy" "bus_produced_total" "msgs"
    [("domain", "bars"), ("outcome", "ok"), ("reason", "r"), ("client_order_id", "co_123")]
    (by decide)

/-- C6 counterexample: with Init never called, or called with EnableMetrics
false, the instrument globals are nil, and each of the six recording
helpers dereferences one — a Go runtime panic reaches the caller,
contradicting the claim that every emission operation absorbs failures in
every initialization state. -/
theorem claim_C6_uninitialized_panic_counterexample :
    metricsStateAfterInit false true = none ∧
    metricsStateAfterInit true false = none ∧
    BusProducedAdd none ⟨"oms", "0.1.0", "prod"⟩ "ampy/prod/orders/v1" 1 = .error nilPanic ∧
    BusConsumedAdd none ⟨"oms", "0.1.0", "prod"⟩ "ampy/prod/orders/v1" 1 = .error nilPanic ∧
    BusDeliveryLatencyMs none ⟨"oms", "0.1.0", "prod"⟩ "ampy/prod/orders/v1" 12 = .error nilPanic ∧
    OMSOrderSubmitAdd none ⟨"oms", "0.1.0", "prod"⟩ "alpaca" "ok" = .error nilPanic ∧
    OMSOrderLatencyMs none ⟨"oms", "0.1.0", "prod"⟩ "alpaca" 42 = .error nilPanic ∧
    OMSRejectAdd none ⟨"oms", "0.1.0", "prod"⟩ "alpaca" "risk_check" = .error nilPanic :=
  ⟨rfl, rfl, rfl, rfl, rfl, rfl, rfl, rfl⟩

/-- C6 amended: once Init has run with metrics enabled (every instrument
populated), all six recording helpers succeed on every input — they have no
error path at all; the logging entry point is nil-safe in every
initialization state, lazily building the root logger when absent, so L and
C never panic; and span starting completes in every provider state — SDK or
noop fallback alike, StartSpan returns the requested span with its name,
kind and attributes, never an error. -/
theorem claim_C6_initialized_emission_safe :
    (∀ inst cfg topic n, ∃ r, BusProducedAdd (some inst) cfg topic n = .ok r) ∧
    (∀ inst cfg topic n, ∃ r, BusConsumedAdd (some inst) cfg topic n = .ok r) ∧
    (∀ inst cfg topic ms, ∃ r, BusDeliveryLatencyMs (some inst) cfg topic ms = .ok r) ∧
    (∀ inst cfg broker outcome, ∃ r, OMSOrderSubmitAdd (some inst) cfg broker outcome = .ok r) ∧
    (∀ inst cfg broker ms, ∃ r, OMSOrderLatencyMs (some inst) cfg broker ms = .ok r) ∧
    (∀ inst cfg broker reason, ∃ r, OMSRejectAdd (some inst) cfg broker reason = .ok r) ∧
    (Lguard none = "slog-json-stdout" ∧ (∀ l, Lguard (some l) = l)) ∧
    (∀ tp fresh ctx nm kind attrs,
      (StartSpan tp fresh ctx nm kind attrs).2.name = nm ∧
      (StartSpan tp fresh ctx nm kind attrs).2.kind = kind ∧
      (StartSpan tp fresh ctx nm kind attrs).2.attrs = attrs) :=
  ⟨fun _ _ _ _ => ⟨_, rfl⟩, fun _ _ _ _ => ⟨_, rfl⟩, fun _ _ _ _ => ⟨_, rfl⟩,
    fun _ _ _ _ => ⟨_, rfl⟩, fun _ _ _ _ => ⟨_, rfl⟩, fun _ _ _ _ => ⟨_, rfl⟩,
    ⟨rfl, fun _ => rfl⟩,
    fun tp _ _ _ _ _ => by cases tp <;> exact ⟨rfl, rfl, rfl⟩⟩

/-- C5: with Sampler `ratio`, a SampleRatio outside the closed unit interval
is not used — the sampler keeps the default parent-based 0.25 root
probability — while an in-range value is used exactly as given, still
parent-based. -/
theorem claim_C5_out_of_range_falls_back (r : ℚ) :
    ((r < 0 ∨ 1 < r) → chooseSampler "ratio" r = ⟨true, 1/4⟩) ∧
    (0 ≤ r → r ≤ 1 → chooseSampler "ratio" r = ⟨true, r⟩) := by
  constructor
  · intro hout
    rw [chooseSampler, if_pos (by decide : goToLower "ratio" = "ratio"),
      if_neg (fun hc => by rcases hout with h | h
                           · linarith [hc.1]
                           · linarith [hc.2])]
  · intro h0 h1
    rw [chooseSampler, if_pos (by decide : goToLower "ratio" = "ratio"), if_pos ⟨h0, h1⟩]

/-- Witness for C5 at ratio values 3/2 (out of range) and 1/2 (in range). -/
theorem claim_C5_out_of_range_falls_back_witness :
    chooseSampler "ratio" (3/2) = ⟨true, 1/4⟩ ∧
    chooseSampler "ratio" (1/2) = ⟨true, 1/2⟩ :=
  ⟨(claim_C5_out_of_range_falls_back (3/2)).1 (Or.inr (by norm_num)),
    (claim_C5_out_of_range_falls_back (1/2)).2 (by norm_num) (by norm_num)⟩

theorem enqueueAll_spec (xs : List Nat) :
    ∀ b : ExportBuffer, b.queue.length ≤ b.capacity →
      (enqueueAll b xs).dropped = b.dropped + (b.queue.length + xs.length - b.capacity) ∧
      (enqueueAll b xs).queue.length = min (b.queue.length + xs.length) b.capacity := by
  induction xs with
  | nil =>
    intro b hb
    rw [enqueueAll]
    simp only [List.length_nil]
    constructor
    · omega
    · omega
  | cons r rs ih =>
    intro b hb
    rw [enqueueAll, enqueueDrop]
    by_cases hlt : b.queue.length < b.capacity
    · rw [if_pos hlt]
      rcases ih ⟨b.capacity, b.queue ++ [r], b.dropped⟩
          (by dsimp only
              simp only [List.length_append, List.length_cons, List.length_nil]
              omega)
        with ⟨hd2, hl2⟩
      dsimp only at hd2 hl2
      rw [hd2, hl2]
      simp only [List.length_append, List.length_cons, List.length_nil]
      constructor <;> omega
    · rw [if_neg hlt]
      rcases ih ⟨b.capacity, b.queue, b.dropped + 1⟩ (by dsimp only; omega)
        with ⟨hd2, hl2⟩
      dsimp only at hd2 hl2
      rw [hd2, hl2]
      simp only [List.length_cons]
      constructor <;> omega

/-- C8: enqueueing on a full export buffer keeps the queue unchanged and
increments the dropped counter by exactly one for that record; starting
from an empty buffer of any capacity, enqueueing any record sequence drops
exactly the excess over capacity — the dropped counter ends at the number
of excess enqueues and the queue holds the first `capacity` records'
worth.  Enqueue never blocks: it is a total constant-shape step. -/
theorem claim_C8_full_buffer_drops_and_counts :
    (∀ (b : ExportBuffer) (r : Nat), b.queue.length = b.capacity →
      enqueueDrop b r = ⟨b.capacity, b.queue, b.dropped + 1⟩) ∧
    (∀ (cap : Nat) (xs : List Nat),
      (enqueueAll (ExportBuffer.empty cap) xs).dropped = xs.length - min xs.length cap ∧
      (enqueueAll (ExportBuffer.empty cap) xs).queue.length = min xs.length cap) := by
  constructor
  · intro b r hfull
    rw [enqueueDrop, if_neg (by omega)]
  · intro cap xs
    rcases enqueueAll_spec xs (ExportBuffer.empty cap)
        (by simp [ExportBuffer.empty]) with ⟨h1, h2⟩
    rw [ExportBuffer.empty] at h1 h2
    dsimp only at h1 h2
    simp only [List.length_nil] at h1 h2
    rw [ExportBuffer.empty, h1, h2]
    constructor <;> omega

/-- Witness for C8: a full buffer of capacity 2 drops the ninth record and
counts it once; five enqueues into an empty two-slot buffer drop exactly
three. -/
theorem claim_C8_full_buffer_drops_and_counts_witness :
    enqueueDrop ⟨2, [7, 8], 5⟩ 9 = ⟨2, [7, 8], 6⟩ ∧
    (enqueueAll (ExportBuffer.empty 2) [1, 2, 3, 4, 5]).dropped = 3 :=
  ⟨claim_C8_full_buffer_drops_and_counts.1 ⟨2, [7, 8], 5⟩ 9 (by decide),
    by rw [(claim_C8_full_buffer_drops_and_counts.2 2 [1, 2, 3, 4, 5]).1]; decide⟩

theorem parseEndpointHostPort_insecure (raw : String) :
    (parseEndpointHostPort raw).2 = true := by
  rw [parseEndpointHostPort]
  split_ifs <;> rfl

/-- C10: parseEndpoint is total (a plain function); the empty string maps
to localhost:4317 insecure; an input that URL-parses with a non-empty
scheme yields the URL host with insecure exactly for scheme http; and every
input the URL parser rejects or parses without a scheme takes the host:port
fallback branch, which is always insecure.  Note the classification is Go's:
a bare host:port with an alphabetic host (localhost:4317) parses as a URL
with scheme `localhost`, so it falls under the scheme clause — host empty,
secure — not the fallback. -/
theorem claim_C10_parseEndpoint_classification (raw : String) :
    parseEndpoint "" = ("localhost:4317", true) ∧
    (∀ scheme host, urlParseModel raw.data = some (scheme, host) → scheme ≠ "" →
      parseEndpoint raw = (host, decide (scheme = "http"))) ∧
    ((urlParseModel raw.data = none ∨ (∃ host, urlParseModel raw.data = some ("", host))) →
      (parseEndpoint raw).2 = true) := by
  refine ⟨rfl, ?_, ?_⟩
  · intro scheme host hu hs
    by_cases hraw : raw = ""
    · subst hraw
      have h0 : urlParseModel "".data = some ("", "") := rfl
      rw [h0] at hu
      simp only [Option.some.injEq, Prod.mk.injEq] at hu
      exact absurd hu.1.symm hs
    · rw [parseEndpoint, if_neg hraw, hu]
      show (if scheme = "" then parseEndpointHostPort raw
        else (host, decide (scheme = "http"))) = (host, decide (scheme = "http"))
      rw [if_neg hs]
  · intro hcase
    by_cases hraw : raw = ""
    · subst hraw
      rfl
    · rw [parseEndpoint, if_neg hraw]
      rcases hcase with hnone | ⟨host, hsome⟩
      · rw [hnone]
        exact parseEndpointHostPort_insecure raw
      · rw [hsome]
        show (if ("" : String) = "" then parseEndpointHostPort raw
          else (host, decide (("" : String) = "http"))).2 = true
        rw [if_pos rfl]
        exact parseEndpointHostPort_insecure raw

/-- Witness for C10: an http URL gives its host insecure; a numeric
host:port takes the fallback and is insecure. -/
theorem claim_C10_parseEndpoint_classification_witness :
    parseEndpoint "http://localhost:4317" = ("localhost:4317", true) ∧
    (parseEndpoint "127.0.0.1:4317").2 = true :=
  ⟨(claim_C10_parseEndpoint_classification "http://localhost:4317").2.1 "http" "localhost:4317"
      (by decide) (by decide),
    (claim_C10_parseEndpoint_classification "127.0.0.1:4317").2.2 (Or.inl (by decide))⟩

end AmpyObs
